import Mathlib

/-!
Verification of the notification lifecycle scheduler in `src/index.js`
(`node-desktop-notification`): the `AnimationQueue` serializer, the
scheduler operations `notify`, `showNotification`, the close closure built
by `buildCloseNotification`, `checkForQueuedNotifications`, `closeAll`, and
the `maxVisibleNotifications` geometry computation.

Shallow-embedding conventions:
* JavaScript arrays are `List`s: `arr.push(x)` is `l ++ [x]`, `arr.shift()`
  removes the head, `arr.pop()` removes the last element.
* The source keeps scheduler state in module-level variables; here it is
  gathered into explicit state records threaded through the operations.
* Every mutation of scheduler state happens inside an `AnimationQueue`
  task (or synchronously inside `notify`), and those tasks run one at a
  time in FIFO order, so scheduler tasks are modelled as atomic state
  transformers executed from a pending FIFO.
* Pixel geometry (`calcInsertPos`, `setPosition`, the interpolated steps of
  `moveNotificationAnimation`) moves windows but never touches the lists
  and flags the claims below are about, so positions are elided;
  `moveOneDown` then has no modelled effect beyond resolving.
-/

/-- State of `AnimationQueue` (src/index.js lines 13-50).  `queue` and
`running` are fields of the source.  `current`, `started` and
`loggedErrors` are observer fields recording, respectively, the task
currently executing inside `animate` (the source executes at most one at a
time: `animate` is entered only from `push` under the `running` guard or
from the `.then` continuation of the previous task), the order in which
tasks began executing over the lifetime of the queue, and how many errors the
`.catch` handler has logged. -/
structure AnimationQueue where
  queue : List Nat
  running : Bool
  current : Option Nat
  started : List Nat
  loggedErrors : Nat
  deriving DecidableEq

/-- `new AnimationQueue()` (lines 13-17). -/
def AnimationQueue.init : AnimationQueue :=
  { queue := [], running := false, current := none, started := [], loggedErrors := 0 }

/-- `AnimationQueue.prototype.push` (lines 19-27): while a task is running
the new task is appended to the FIFO; otherwise `running` is set and the
task starts at once (`this.animate(object)`). -/
def AnimationQueue.push (s : AnimationQueue) (t : Nat) : AnimationQueue :=
  if s.running then { s with queue := s.queue ++ [t] }
  else { s with running := true, current := some t, started := s.started ++ [t] }

/-- The `.then` handler inside `AnimationQueue.prototype.animate`
(lines 32-40): when the promise of the current task fulfills, the next queued
task is dequeued and started (`self.animate(self.queue.shift())`), or the
queue is marked idle.  A settlement can only arrive for an executing
task. -/
def AnimationQueue.settleOk (s : AnimationQueue) : AnimationQueue :=
  match s.current with
  | none => s
  | some _ =>
    match s.queue with
    | t :: rest => { s with queue := rest, current := some t, started := s.started ++ [t] }
    | [] => { s with running := false, current := none }

/-- The `.catch` handler inside `AnimationQueue.prototype.animate`
(lines 41-45): the error is logged and nothing else happens — the pending
queue is not advanced and `running` is not reset. -/
def AnimationQueue.settleFail (s : AnimationQueue) : AnimationQueue :=
  match s.current with
  | none => s
  | some _ => { s with current := none, loggedErrors := s.loggedErrors + 1 }

/-- `AnimationQueue.prototype.clear` (lines 48-50). -/
def AnimationQueue.clear (s : AnimationQueue) : AnimationQueue :=
  { s with queue := [] }

/-- External events driving an `AnimationQueue`. -/
inductive AQEvent where
  | push (t : Nat)
  | settleOk
  | settleFail
  | clear
  deriving DecidableEq

def AQstep (s : AnimationQueue) : AQEvent → AnimationQueue
  | .push t => s.push t
  | .settleOk => s.settleOk
  | .settleFail => s.settleFail
  | .clear => s.clear

def AQrunFrom (s : AnimationQueue) (evs : List AQEvent) : AnimationQueue :=
  evs.foldl AQstep s

def AQrun (evs : List AQEvent) : AnimationQueue :=
  AQrunFrom AnimationQueue.init evs

/-- The tasks pushed by a sequence of events, in push order. -/
def pushedOf : List AQEvent → List Nat
  | [] => []
  | .push t :: evs => t :: pushedOf evs
  | .settleOk :: evs => pushedOf evs
  | .settleFail :: evs => pushedOf evs
  | .clear :: evs => pushedOf evs

/-- Well-formedness: an idle queue has no pending and no executing task
(true of the initial state and preserved by every event). -/
def AQwf (s : AnimationQueue) : Prop :=
  s.running = false → s.queue = [] ∧ s.current = none

/-! ## The notification scheduler -/

/-- A notification request object as passed to `notify`.  `id` and `closed`
are the two fields the scheduler writes (`notify` line 213,
`buildCloseNotification` line 285).  `displayTime` and the callback fields
mirror the optional per-request fields; `payload` stands for every other
caller-visible field (title, text, url, sound, ...), which the scheduler
never touches. -/
structure Notif where
  id : Option Nat := none
  displayTime : Option Nat := none
  hasOnShow : Bool := false
  hasOnClose : Bool := false
  hasOnClick : Bool := false
  closed : Bool := false
  payload : Nat := 0
  deriving DecidableEq

/-- A pending `animationQueue` task: a `showNotification` call, or a close
closure built by `buildCloseNotification`, which captured a window `win`, a
notification object reference `r` and — only on the timeout/API path — the
`getTimeoutId` accessor, modelled by the timer id `tid` it returns. -/
inductive NTask where
  | show (r : Nat)
  | close (win : Nat) (r : Nat) (tid : Option Nat) (reason : String)
  deriving DecidableEq

/-- The module-level scheduler state of `src/index.js`.  `heap` holds the
notification objects; a `Nat` index into it models a JavaScript object
reference, so a field written through one alias is seen through all.
`pending` is the `animationQueue` FIFO of tasks not yet executed (by the
serialization proved for C1, tasks run atomically in FIFO order).
`armedTimers` holds the ids of `setTimeout` timers armed and not yet fired
or cleared.  `onCloseLog` (an entry per `onCloseFunc` invocation, with the
reason), `shownLog` (an entry per `showInactive`) and `destroyedWins` (an
entry per `window.close()`) are observer fields. -/
structure SState where
  heap : List Notif
  latestID : Nat
  activeNotifications : List Nat
  inactiveWindows : List Nat
  notificationQueue : List Nat
  pending : List NTask
  maxVisible : Int
  armedTimers : List Nat
  nextTimerId : Nat
  nextWinId : Nat
  onCloseLog : List (Nat × String)
  shownLog : List Nat
  destroyedWins : List Nat
  deriving DecidableEq

/-- The state right after module load, with
`config.maxVisibleNotifications = m` (lines 190-207). -/
def SState.init (m : Int) : SState :=
  { heap := [], latestID := 0, activeNotifications := [], inactiveWindows := [],
    notificationQueue := [], pending := [], maxVisible := m, armedTimers := [],
    nextTimerId := 0, nextWinId := 0, onCloseLog := [], shownLog := [],
    destroyedWins := [] }

/-- `Array.prototype.indexOf`: index of the first occurrence, or -1. -/
def jsIndexOf (l : List Nat) (x : Nat) : Int :=
  match l.findIdx? (· == x) with
  | some i => (i : Int)
  | none => -1

/-- `Array.prototype.splice(pos, 1)` for the indices `indexOf` produces: a
nonnegative index removes the element there (nothing if out of range); a
negative index counts from the end, so `splice(-1, 1)` removes the last
element of a nonempty array and nothing of an empty one. -/
def jsSpliceRemoveOne (l : List Nat) (pos : Int) : List Nat :=
  if pos < 0 then l.dropLast else l.eraseIdx pos.toNat

/-- `getWindow` (lines 427-450): reuse the most recently pooled window
(`inactiveWindows.pop()`) or create a fresh `BrowserWindow` (window
construction and `loadURL` are external; a fresh id stands for the new
handle).  Returns the window and the updated state. -/
def getWindow (st : SState) : Nat × SState :=
  match st.inactiveWindows.getLast? with
  | some w => (w, { st with inactiveWindows := st.inactiveWindows.dropLast })
  | none => (st.nextWinId, { st with nextWinId := st.nextWinId + 1 })

/-- `showNotification` (lines 228-276), run as an `animationQueue` task.
With a free slot: acquire a window, append it to `activeNotifications`,
arm the display-time timeout, fire `onShowFunc` (no effect on modelled
state: it only receives a fresh object holding the id and a close
callback), send the contents and show the window.  With the active set
full: append the request to `notificationQueue` and resolve — no window is
acquired or created. -/
def showNotification (st : SState) (r : Nat) : SState :=
  if (st.activeNotifications.length : Int) < st.maxVisible then
    let ws := getWindow st
    { ws.2 with
      activeNotifications := ws.2.activeNotifications ++ [ws.1],
      armedTimers := ws.2.armedTimers ++ [ws.2.nextTimerId],
      nextTimerId := ws.2.nextTimerId + 1,
      shownLog := ws.2.shownLog ++ [r] }
  else
    { st with notificationQueue := st.notificationQueue ++ [r] }

/-- `checkForQueuedNotifications` (lines 352-361): if a request is queued
and a slot is free, shift it off the queue and push a `showNotification`
task onto the `animationQueue`. -/
def checkForQueuedNotifications (st : SState) : SState :=
  match st.notificationQueue with
  | q :: rest =>
    if (st.activeNotifications.length : Int) < st.maxVisible then
      { st with notificationQueue := rest, pending := st.pending ++ [NTask.show q] }
    else st
  | [] => st

/-- The closure returned by `buildCloseNotification` (lines 279-314),
always executed as an `animationQueue` task.  `win` and `r` are the
captured window and notification reference; `tid` is what the captured
`getTimeoutId` accessor returns — the timeout/API path captures it
(line 246) while the ipc close and click handlers build the closure
without it (lines 330, 339), so there `clearTimeout` is skipped.  An
already-closed object exits early with nothing else done; otherwise: set
`closed`, fire `onCloseFunc` if present, reset the rendered contents,
clear the timeout if the accessor was captured, splice the window out of
`activeNotifications` (JavaScript `indexOf`/`splice`), pool it
unconditionally, hide it, admit a queued request, and run `moveOneDown`
(position-only animation, no modelled effect). -/
def closeNotification (st : SState) (win r : Nat) (tid : Option Nat)
    (reason : String) : SState :=
  match st.heap[r]? with
  | none => st
  | some obj =>
    if obj.closed then st
    else
      let st1 := { st with heap := st.heap.set r { obj with closed := true } }
      let st2 := if obj.hasOnClose
        then { st1 with onCloseLog := st1.onCloseLog ++ [(r, reason)] }
        else st1
      let st3 := match tid with
        | some t => { st2 with armedTimers := st2.armedTimers.erase t }
        | none => st2
      let st4 := { st3 with
        activeNotifications :=
          jsSpliceRemoveOne st3.activeNotifications
            (jsIndexOf st3.activeNotifications win),
        inactiveWindows := st3.inactiveWindows ++ [win] }
      checkForQueuedNotifications st4

/-- The valid-argument body of `notify` (lines 211-220): write the next id
into the object supplied by the caller (in place, through the reference —
no copy is made), bump `latestID`, push a `showNotification` task over
that same reference, and return the id. -/
def notifyValid (st : SState) (o : Notif) : Nat × SState :=
  (st.latestID,
   { st with
     heap := st.heap ++ [{ o with id := some st.latestID }],
     latestID := st.latestID + 1,
     pending := st.pending ++ [NTask.show st.heap.length] })

/-- `closeAll` (lines 452-465): clear the `animationQueue`, destroy every
active and every pooled window, and reset `activeNotifications`,
`inactiveWindows` and the (unmodelled) insert position.  The source does
not touch `notificationQueue`. -/
def closeAll (st : SState) : SState :=
  { st with
    pending := [],
    destroyedWins := st.destroyedWins ++ st.activeNotifications
      ++ st.inactiveWindows,
    activeNotifications := [],
    inactiveWindows := [] }

/-- External events driving the scheduler.  The arguments of the close and
timer events are unconstrained — an adversarial environment may fire them
with any values — which only strengthens the invariants below. -/
inductive SEvent where
  | notify (o : Notif)
  | notifyBad
  | runTask
  | timerFire (win r t : Nat)
  | ipcClose (win r : Nat)
  | apiClose (win r : Nat) (tid : Option Nat) (reason : Option String)
  | closeAllCall
  deriving DecidableEq

def runNTask (st : SState) : NTask → SState
  | .show r => showNotification st r
  | .close w r tid reason => closeNotification st w r tid reason

/-- `buildCloseNotificationSafely` (lines 318-327): default the reason to
"closedByAPI" and push the close closure onto the `animationQueue`. -/
def closeNotificationSafely (st : SState) (win r : Nat) (tid : Option Nat)
    (reason : Option String) : SState :=
  { st with pending :=
      st.pending ++ [NTask.close win r tid (reason.getD "closedByAPI")] }

/-- One scheduler step.  `notify` is the valid-call path (line 211 guard
passed); `notifyBad` a malformed call (logged, nothing mutated);
`runTask` lets the `animationQueue` start its next pending task;
`timerFire` is an armed `setTimeout` firing, which pushes the captured
close closure with reason "timeout" (lines 250-252); `ipcClose` is the
close signal from the surface (lines 329-332: closure built without
`getTimeoutId`, reason "close"); `apiClose` is a call of the close
callback handed to `onShowFunc`/`onClickFunc` through
`buildCloseNotificationSafely`. -/
def SStep (st : SState) : SEvent → SState
  | .notify o => (notifyValid st o).2
  | .notifyBad => st
  | .runTask =>
    match st.pending with
    | [] => st
    | t :: rest => runNTask { st with pending := rest } t
  | .timerFire win r t =>
    if st.armedTimers.contains t then
      { st with armedTimers := st.armedTimers.erase t,
                pending := st.pending ++ [NTask.close win r (some t) "timeout"] }
    else st
  | .ipcClose win r =>
    { st with pending := st.pending ++ [NTask.close win r none "close"] }
  | .apiClose win r tid reason => closeNotificationSafely st win r tid reason
  | .closeAllCall => closeAll st

def SRunFrom (st : SState) (evs : List SEvent) : SState := evs.foldl SStep st

def SRun (m : Int) (evs : List SEvent) : SState :=
  SRunFrom (SState.init m) evs

/-- The ids handed back to the caller by the valid `notify` calls of an
event sequence, in call order. -/
def notifyIdsFrom : SState → List SEvent → List Nat
  | _, [] => []
  | st, SEvent.notify o :: evs =>
    (notifyValid st o).1 :: notifyIdsFrom (SStep st (SEvent.notify o)) evs
  | st, e :: evs => notifyIdsFrom (SStep st e) evs

/-- Number of valid `notify` calls in an event sequence. -/
def countNotifyCalls : List SEvent → Nat
  | [] => 0
  | SEvent.notify _ :: evs => countNotifyCalls evs + 1
  | _ :: evs => countNotifyCalls evs

/-- The JavaScript values relevant to the `notify` argument check; an
object argument carries the notification record it references. -/
inductive JSVal where
  | null
  | undefined
  | num (n : Int)
  | str (s : String)
  | bool (b : Bool)
  | obj (o : Notif)
  | jsfun
  deriving DecidableEq

/-- JavaScript `typeof`, including the classic quirk that
`typeof null` is "object". -/
def jsTypeof : JSVal → String
  | .null => "object"
  | .undefined => "undefined"
  | .num _ => "number"
  | .str _ => "string"
  | .bool _ => "boolean"
  | .obj _ => "object"
  | .jsfun => "function"

/-- Outcome of a `notify` call: a normal return (the id, or `undefined`
for a rejected call) paired with the new state, or an exception escaping
to the caller. -/
inductive JSOutcome where
  | ret (id : Option Nat) (st : SState)
  | threw (msg : String)
  deriving DecidableEq

/-- `notify` (lines 209-226) over a JavaScript argument list.  The guard
`arguments.length === 1 && typeof notification === "object"` lets `null`
through (`typeof null` is "object"), and the next line
`notification.id = latestID` then throws a TypeError on `null`; a real
object runs the `notifyValid` body; every other argument list is logged
and the call returns `undefined` with no state change. -/
def notify (st : SState) (args : List JSVal) : JSOutcome :=
  if args.length = 1 ∧ jsTypeof (args.headD JSVal.undefined) = "object" then
    match args.headD JSVal.undefined with
    | .obj o => JSOutcome.ret (some (notifyValid st o).1) (notifyValid st o).2
    | _ => JSOutcome.threw "TypeError: cannot set properties of null"
  else
    JSOutcome.ret none st

/-- `config.maxVisibleNotifications` (lines 191-192):
`Math.floor(workAreaHeight / totalHeight)`, then capped above at 7.  For
integer arguments (with the divisor positive, as `height + padding` is),
`Math.floor` of the real quotient is floor division, `Int.fdiv`. -/
def maxVisibleNotifications (workAreaHeight totalHeight : Int) : Int :=
  let m := Int.fdiv workAreaHeight totalHeight
  if m > 7 then 7 else m

/-- The `closed` flag of the object referenced by `r` (false for a
dangling reference). -/
def closedAt (st : SState) (r : Nat) : Bool :=
  match st.heap[r]? with
  | some o => o.closed
  | none => false

/-- Number of `onCloseFunc` invocations recorded for reference `r`. -/
def countCloseFor (st : SState) (r : Nat) : Nat :=
  (st.onCloseLog.filter (fun e => e.1 == r)).length

/-- A sequence of invocations of close closures over the same notification
reference `r`, each through an arbitrary path (window, captured timeout
accessor, reason). -/
def closeCalls (st : SState) (r : Nat) : List (Nat × Option Nat × String) → SState
  | [] => st
  | c :: cs => closeCalls (closeNotification st c.1 r c.2.1 c.2.2) r cs

/-! ## Theorems -/

theorem AQwf_init : AQwf AnimationQueue.init := by
  intro _; exact ⟨rfl, rfl⟩

theorem AQwf_step (s : AnimationQueue) (hwf : AQwf s) (e : AQEvent) :
    AQwf (AQstep s e) := by
  cases e with
  | push t =>
    intro hr
    cases hb : s.running
    · simp [AQstep, AnimationQueue.push, hb] at hr
    · simp [AQstep, AnimationQueue.push, hb] at hr
  | settleOk =>
    rcases hc : s.current with _ | t
    · simpa [AQstep, AnimationQueue.settleOk, hc] using hwf
    · rcases hq : s.queue with _ | ⟨u, rest⟩
      · intro _; simp [AQstep, AnimationQueue.settleOk, hc, hq]
      · intro hr
        simp [AQstep, AnimationQueue.settleOk, hc, hq] at hr
        rcases hwf hr with ⟨h1, _⟩
        rw [hq] at h1
        exact (List.cons_ne_nil _ _ h1).elim
  | settleFail =>
    rcases hc : s.current with _ | t
    · simpa [AQstep, AnimationQueue.settleFail, hc] using hwf
    · intro hr
      simp [AQstep, AnimationQueue.settleFail, hc] at hr ⊢
      exact (hwf hr).1
  | clear =>
    intro hr
    simp [AQstep, AnimationQueue.clear] at hr ⊢
    exact (hwf hr).2

/-- Each non-`clear` event extends `started ++ queue` by exactly the tasks
it pushes. -/
theorem AQstep_order (s : AnimationQueue) (hwf : AQwf s) (e : AQEvent)
    (he : e ≠ AQEvent.clear) :
    (AQstep s e).started ++ (AQstep s e).queue
      = (s.started ++ s.queue) ++ pushedOf [e] := by
  cases e with
  | push t =>
    by_cases h : s.running = true
    · simp [AQstep, AnimationQueue.push, h, pushedOf]
    · have h0 : s.running = false := by simpa using h
      rcases hwf h0 with ⟨h1, _⟩
      simp [AQstep, AnimationQueue.push, h0, h1, pushedOf]
  | settleOk =>
    rcases hc : s.current with _ | t
    · simp [AQstep, AnimationQueue.settleOk, hc, pushedOf]
    · rcases hq : s.queue with _ | ⟨u, rest⟩
      · simp [AQstep, AnimationQueue.settleOk, hc, hq, pushedOf]
      · simp [AQstep, AnimationQueue.settleOk, hc, hq, pushedOf]
  | settleFail =>
    rcases hc : s.current with _ | t
    · simp [AQstep, AnimationQueue.settleFail, hc, pushedOf]
    · simp [AQstep, AnimationQueue.settleFail, hc, pushedOf]
  | clear => exact absurd rfl he

/-- A `clear` only drops a suffix of `started ++ queue`; every event keeps
`started ++ queue` a sublist of its old value extended by the new pushes. -/
theorem AQstep_order_sublist (s : AnimationQueue) (hwf : AQwf s) (e : AQEvent) :
    ((AQstep s e).started ++ (AQstep s e).queue).Sublist
      ((s.started ++ s.queue) ++ pushedOf [e]) := by
  by_cases he : e = AQEvent.clear
  · subst he
    simp [AQstep, AnimationQueue.clear, pushedOf]
  · exact (AQstep_order s hwf e he) ▸ List.Sublist.refl _

/-- Fold of the per-event order lemmas over an event sequence. -/
theorem AQrunFrom_order (evs : List AQEvent) : ∀ s : AnimationQueue, AQwf s →
    AQwf (AQrunFrom s evs)
    ∧ ((AQrunFrom s evs).started ++ (AQrunFrom s evs).queue).Sublist
        ((s.started ++ s.queue) ++ pushedOf evs)
    ∧ ((∀ e ∈ evs, e ≠ AQEvent.clear) →
        (AQrunFrom s evs).started ++ (AQrunFrom s evs).queue
          = (s.started ++ s.queue) ++ pushedOf evs) := by
  induction evs with
  | nil =>
    intro s hwf
    exact ⟨hwf, by simp [AQrunFrom, pushedOf], by simp [AQrunFrom, pushedOf]⟩
  | cons e evs ih =>
    intro s hwf
    have hwf' := AQwf_step s hwf e
    have hrun : AQrunFrom s (e :: evs) = AQrunFrom (AQstep s e) evs := by
      simp [AQrunFrom]
    have hpush : pushedOf (e :: evs) = pushedOf [e] ++ pushedOf evs := by
      cases e <;> simp [pushedOf]
    rcases ih (AQstep s e) hwf' with ⟨hwf2, hsub, heq⟩
    refine ⟨hrun ▸ hwf2, ?_, ?_⟩
    · rw [hrun, hpush]
      have h2 : (((AQstep s e).started ++ (AQstep s e).queue) ++ pushedOf evs).Sublist
          ((s.started ++ s.queue ++ pushedOf [e]) ++ pushedOf evs) :=
        (AQstep_order_sublist s hwf e).append (List.Sublist.refl _)
      have h3 := hsub.trans h2
      simpa [List.append_assoc] using h3
    · intro hcl
      have he : e ≠ AQEvent.clear := hcl e (by simp)
      rw [hrun, hpush, heq (fun x hx => hcl x (by simp [hx])),
        AQstep_order s hwf e he]
      simp [List.append_assoc]

/-- **C1.**  The `AnimationQueue` serializes tasks: at most one pushed task
executes at a time (the `current` observer), and over the lifetime of the queue
tasks begin execution in push order: `started` is always a sublist of the
push order, and in clear-free runs `started ++ queue` equals the push
order exactly, so execution order is the FIFO prefix of push order.  A
push while a task is running only appends to the FIFO (execution state
untouched); a push while idle starts the task immediately. -/
theorem animationQueue_serializes_fifo (evs : List AQEvent) :
    (AQrun evs).started.Sublist (pushedOf evs)
    ∧ ((∀ e ∈ evs, e ≠ AQEvent.clear) →
        (AQrun evs).started ++ (AQrun evs).queue = pushedOf evs)
    ∧ (∀ s t, s.running = true →
        AnimationQueue.push s t = { s with queue := s.queue ++ [t] })
    ∧ (∀ s t, s.running = false →
        AnimationQueue.push s t
          = { s with running := true, current := some t,
                     started := s.started ++ [t] }) := by
  rcases AQrunFrom_order evs AnimationQueue.init AQwf_init with ⟨_, hsub, heq⟩
  have hsub2 : ((AQrun evs).started ++ (AQrun evs).queue).Sublist (pushedOf evs) := by
    simpa [AQrun, AnimationQueue.init] using hsub
  have heq2 : (∀ e ∈ evs, e ≠ AQEvent.clear) →
      (AQrun evs).started ++ (AQrun evs).queue = pushedOf evs := by
    intro h; simpa [AQrun, AnimationQueue.init] using heq h
  exact ⟨(List.sublist_append_left _ _).trans hsub2, heq2,
    fun s t h => by simp [AnimationQueue.push, h],
    fun s t h => by simp [AnimationQueue.push, h]⟩

/-- Witness for C1 on a concrete run: three tasks pushed with interleaved
completions begin in exactly push order, and the two push modes behave as
stated. -/
theorem animationQueue_serializes_fifo_witness :
    (AQrun [AQEvent.push 0, AQEvent.push 1, AQEvent.settleOk, AQEvent.push 2,
        AQEvent.settleOk, AQEvent.settleOk]).started
      ++ (AQrun [AQEvent.push 0, AQEvent.push 1, AQEvent.settleOk, AQEvent.push 2,
        AQEvent.settleOk, AQEvent.settleOk]).queue
      = pushedOf [AQEvent.push 0, AQEvent.push 1, AQEvent.settleOk, AQEvent.push 2,
        AQEvent.settleOk, AQEvent.settleOk]
    ∧ AnimationQueue.push
        { queue := [], running := true, current := some 5, started := [5], loggedErrors := 0 } 7
      = { queue := [7], running := true, current := some 5, started := [5], loggedErrors := 0 }
    ∧ AnimationQueue.push AnimationQueue.init 3
      = { queue := [], running := true, current := some 3, started := [3], loggedErrors := 0 } :=
  ⟨(animationQueue_serializes_fifo _).2.1 (by decide),
   (animationQueue_serializes_fifo []).2.2.1 _ 7 rfl,
   (animationQueue_serializes_fifo []).2.2.2 AnimationQueue.init 3 rfl⟩

/-- A stalled queue (`running` stuck true with nothing executing, the state
reached after a task failure) never starts another task, whatever events
arrive. -/
theorem AQstalled_run (evs : List AQEvent) : ∀ s : AnimationQueue,
    s.running = true → s.current = none →
    (AQrunFrom s evs).started = s.started ∧ (AQrunFrom s evs).running = true := by
  induction evs with
  | nil => intro s h1 h2; exact ⟨rfl, h1⟩
  | cons e evs ih =>
    intro s h1 h2
    have hst : AQrunFrom s (e :: evs) = AQrunFrom (AQstep s e) evs := by
      simp [AQrunFrom]
    have hkeep : (AQstep s e).running = true ∧ (AQstep s e).current = none
        ∧ (AQstep s e).started = s.started := by
      cases e with
      | push t => simp [AQstep, AnimationQueue.push, h1, h2]
      | settleOk => simp [AQstep, AnimationQueue.settleOk, h1, h2]
      | settleFail => simp [AQstep, AnimationQueue.settleFail, h1, h2]
      | clear => simp [AQstep, AnimationQueue.clear, h1, h2]
    rcases hkeep with ⟨k1, k2, k3⟩
    rcases ih (AQstep s e) k1 k2 with ⟨r1, r2⟩
    exact ⟨by rw [hst, r1, k3], by rw [hst]; exact r2⟩

/-- **C2.**  When an `AnimationQueue` task fails, the `.catch` handler only
logs: the pending queue is not advanced and `running` is not reset (shown
by the record equality, which leaves `queue` and `running` untouched and
increments the error log).  From the resulting stalled state every later
push is appended but never executed: the `started` history never grows
again and `running` stays true forever. -/
theorem animationQueue_stalls_on_failure :
    (∀ s : AnimationQueue, ∀ t, s.current = some t →
        AnimationQueue.settleFail s
          = { s with current := none, loggedErrors := s.loggedErrors + 1 })
    ∧ (∀ s : AnimationQueue, s.running = true → s.current = none →
        ∀ evs, (AQrunFrom s evs).started = s.started
          ∧ (AQrunFrom s evs).running = true) := by
  constructor
  · intro s t h; simp [AnimationQueue.settleFail, h]
  · intro s h1 h2 evs; exact AQstalled_run evs s h1 h2

/-- Witness for C2: a concrete failure while one task is pending leaves the
pending task queued forever; later pushes are appended but never begin. -/
theorem animationQueue_stalls_on_failure_witness :
    AnimationQueue.settleFail
        { queue := [4], running := true, current := some 9, started := [9], loggedErrors := 0 }
      = { queue := [4], running := true, current := none, started := [9], loggedErrors := 1 }
    ∧ (AQrunFrom
        { queue := [4], running := true, current := none, started := [9], loggedErrors := 1 }
        [AQEvent.push 6, AQEvent.settleOk, AQEvent.settleFail]).started = [9]
    ∧ (AQrunFrom
        { queue := [4], running := true, current := none, started := [9], loggedErrors := 1 }
        [AQEvent.push 6, AQEvent.settleOk, AQEvent.settleFail]).running = true :=
  ⟨animationQueue_stalls_on_failure.1 _ 9 rfl,
   (animationQueue_stalls_on_failure.2 _ rfl rfl _).1,
   (animationQueue_stalls_on_failure.2 _ rfl rfl _).2⟩


/-! ### List and heap helpers -/

theorem lt_length_of_getElem? {α : Type} {l : List α} {r : Nat} {o : α}
    (h : l[r]? = some o) : r < l.length := by
  by_contra hc
  push_neg at hc
  rw [List.getElem?_eq_none hc] at h
  cases h

theorem getElem?_append_left_of_some {α : Type} {l l2 : List α} {r : Nat}
    {o : α} (h : l[r]? = some o) : (l ++ l2)[r]? = some o := by
  rw [List.getElem?_append, if_pos (lt_length_of_getElem? h)]
  exact h

theorem getElem?_set_self {α : Type} {l : List α} {r : Nat} {o v : α}
    (h : l[r]? = some o) : (l.set r v)[r]? = some v := by
  rw [List.getElem?_set]
  simp [lt_length_of_getElem? h]

theorem getElem?_set_other {α : Type} {l : List α} {r r2 : Nat} {v : α}
    (hne : r ≠ r2) : (l.set r v)[r2]? = l[r2]? := by
  rw [List.getElem?_set]
  simp [hne]

theorem jsSpliceRemoveOne_length_le (l : List Nat) (p : Int) :
    (jsSpliceRemoveOne l p).length ≤ l.length := by
  unfold jsSpliceRemoveOne
  split
  · rw [List.length_dropLast]; omega
  · rw [List.length_eraseIdx]; split <;> omega

theorem jsSpliceRemoveOne_nil (p : Int) : jsSpliceRemoveOne [] p = [] := by
  unfold jsSpliceRemoveOne
  split
  · rfl
  · cases p.toNat <;> rfl

theorem countCloseFor_append_other {log : List (Nat × String)}
    {r r2 : Nat} {reason : String} (hne : r2 ≠ r) :
    ((log ++ [(r2, reason)]).filter (fun e => e.1 == r)).length
      = (log.filter (fun e => e.1 == r)).length := by
  rw [List.filter_append]
  simp [hne]

/-! ### Frame lemmas for the scheduler operations -/

theorem getWindow_frame (st : SState) :
    (getWindow st).2.heap = st.heap
    ∧ (getWindow st).2.latestID = st.latestID
    ∧ (getWindow st).2.activeNotifications = st.activeNotifications
    ∧ (getWindow st).2.notificationQueue = st.notificationQueue
    ∧ (getWindow st).2.pending = st.pending
    ∧ (getWindow st).2.maxVisible = st.maxVisible
    ∧ (getWindow st).2.armedTimers = st.armedTimers
    ∧ (getWindow st).2.nextTimerId = st.nextTimerId
    ∧ (getWindow st).2.onCloseLog = st.onCloseLog
    ∧ (getWindow st).2.shownLog = st.shownLog
    ∧ (getWindow st).2.destroyedWins = st.destroyedWins := by
  unfold getWindow
  rcases h : st.inactiveWindows.getLast? with _ | w <;> simp [h]

theorem showNotification_of_ge (st : SState) (r : Nat)
    (hge : st.maxVisible ≤ (st.activeNotifications.length : Int)) :
    showNotification st r
      = { st with notificationQueue := st.notificationQueue ++ [r] } := by
  have hnot : ¬ ((st.activeNotifications.length : Int) < st.maxVisible) :=
    not_lt.mpr hge
  simp [showNotification, hnot]

theorem showNotification_of_lt (st : SState) (r : Nat)
    (hlt : (st.activeNotifications.length : Int) < st.maxVisible) :
    (showNotification st r).activeNotifications
        = st.activeNotifications ++ [(getWindow st).1]
    ∧ (showNotification st r).shownLog = st.shownLog ++ [r]
    ∧ (showNotification st r).notificationQueue = st.notificationQueue := by
  rcases getWindow_frame st with ⟨_, _, hact, hq, _, _, _, _, _, hshown, _⟩
  refine ⟨?_, ?_, ?_⟩ <;> simp [showNotification, hlt, hact, hq, hshown]

theorem showNotification_frame (st : SState) (r : Nat) :
    (showNotification st r).heap = st.heap
    ∧ (showNotification st r).latestID = st.latestID
    ∧ (showNotification st r).pending = st.pending
    ∧ (showNotification st r).maxVisible = st.maxVisible
    ∧ (showNotification st r).onCloseLog = st.onCloseLog
    ∧ (showNotification st r).destroyedWins = st.destroyedWins := by
  rcases getWindow_frame st with ⟨hh, hl, _, _, hp, hm, _, _, hlog, _, hd⟩
  by_cases hlt : (st.activeNotifications.length : Int) < st.maxVisible
  · refine ⟨?_, ?_, ?_, ?_, ?_, ?_⟩ <;>
      simp [showNotification, hlt, hh, hl, hp, hm, hlog, hd]
  · refine ⟨?_, ?_, ?_, ?_, ?_, ?_⟩ <;> simp [showNotification, hlt]

theorem showNotification_capacity (st : SState) (r : Nat)
    (h : (st.activeNotifications.length : Int) ≤ st.maxVisible) :
    ((showNotification st r).activeNotifications.length : Int) ≤ st.maxVisible := by
  by_cases hlt : (st.activeNotifications.length : Int) < st.maxVisible
  · rw [(showNotification_of_lt st r hlt).1]
    simp only [List.length_append, List.length_singleton]
    push_cast
    omega
  · rw [showNotification_of_ge st r (not_lt.mp hlt)]
    simpa using h

theorem checkForQueued_frame (st : SState) :
    (checkForQueuedNotifications st).heap = st.heap
    ∧ (checkForQueuedNotifications st).latestID = st.latestID
    ∧ (checkForQueuedNotifications st).activeNotifications = st.activeNotifications
    ∧ (checkForQueuedNotifications st).inactiveWindows = st.inactiveWindows
    ∧ (checkForQueuedNotifications st).maxVisible = st.maxVisible
    ∧ (checkForQueuedNotifications st).armedTimers = st.armedTimers
    ∧ (checkForQueuedNotifications st).onCloseLog = st.onCloseLog
    ∧ (checkForQueuedNotifications st).shownLog = st.shownLog
    ∧ (checkForQueuedNotifications st).destroyedWins = st.destroyedWins
    ∧ (checkForQueuedNotifications st).nextTimerId = st.nextTimerId
    ∧ (checkForQueuedNotifications st).nextWinId = st.nextWinId
    ∧ (checkForQueuedNotifications st).latestID = st.latestID := by
  unfold checkForQueuedNotifications
  rcases h : st.notificationQueue with _ | ⟨q, rest⟩
  · simp [h]
  · by_cases hlt : (st.activeNotifications.length : Int) < st.maxVisible
    · simp [hlt]
    · simp [hlt]

theorem closeNotification_none_noop (st : SState) (win r : Nat)
    (tid : Option Nat) (reason : String) (hget : st.heap[r]? = none) :
    closeNotification st win r tid reason = st := by
  unfold closeNotification
  rw [hget]

theorem closeNotification_closed_noop (st : SState) (win r : Nat)
    (tid : Option Nat) (reason : String) (obj : Notif)
    (hget : st.heap[r]? = some obj) (hc : obj.closed = true) :
    closeNotification st win r tid reason = st := by
  unfold closeNotification
  rw [hget]
  simp [hc]

theorem closeNotification_unfold (st : SState) (win r : Nat) (tid : Option Nat)
    (reason : String) (obj : Notif) (hget : st.heap[r]? = some obj)
    (hc : obj.closed = false) :
    closeNotification st win r tid reason
      = checkForQueuedNotifications
          { st with
            heap := st.heap.set r { obj with closed := true },
            onCloseLog := if obj.hasOnClose then st.onCloseLog ++ [(r, reason)]
              else st.onCloseLog,
            armedTimers := match tid with
              | some t => st.armedTimers.erase t
              | none => st.armedTimers,
            activeNotifications := jsSpliceRemoveOne st.activeNotifications
              (jsIndexOf st.activeNotifications win),
            inactiveWindows := st.inactiveWindows ++ [win] } := by
  unfold closeNotification
  rw [hget]
  cases tid <;> by_cases hoc : obj.hasOnClose <;> simp [hc, hoc]

theorem closeNotification_frame (st : SState) (win r : Nat) (tid : Option Nat)
    (reason : String) :
    (closeNotification st win r tid reason).latestID = st.latestID
    ∧ (closeNotification st win r tid reason).maxVisible = st.maxVisible
    ∧ (closeNotification st win r tid reason).shownLog = st.shownLog
    ∧ (closeNotification st win r tid reason).activeNotifications.length
        ≤ st.activeNotifications.length := by
  rcases hget : st.heap[r]? with _ | obj
  · rw [closeNotification_none_noop st win r tid reason hget]
    exact ⟨rfl, rfl, rfl, le_refl _⟩
  · by_cases hc : obj.closed
    · rw [closeNotification_closed_noop st win r tid reason obj hget hc]
      exact ⟨rfl, rfl, rfl, le_refl _⟩
    · rw [closeNotification_unfold st win r tid reason obj hget (by simpa using hc)]
      rcases checkForQueued_frame _ with ⟨_, hl, hact, _, hm, _, _, hshown, _, _, _, _⟩
      refine ⟨by rw [hl], by rw [hm], by rw [hshown], ?_⟩
      rw [hact]
      exact jsSpliceRemoveOne_length_le _ _

theorem closeNotification_sets_closed (st : SState) (win r : Nat)
    (tid : Option Nat) (reason : String) (obj : Notif)
    (hget : st.heap[r]? = some obj) (hc : obj.closed = false) :
    (closeNotification st win r tid reason).heap[r]?
      = some { obj with closed := true } := by
  rw [closeNotification_unfold st win r tid reason obj hget hc,
    (checkForQueued_frame _).1]
  exact getElem?_set_self hget

theorem closeNotification_heap_other (st : SState) (win r r2 : Nat)
    (tid : Option Nat) (reason : String) (hne : r ≠ r2) :
    (closeNotification st win r tid reason).heap[r2]? = st.heap[r2]? := by
  rcases hget : st.heap[r]? with _ | obj
  · rw [closeNotification_none_noop st win r tid reason hget]
  · by_cases hc : obj.closed
    · rw [closeNotification_closed_noop st win r tid reason obj hget hc]
    · rw [closeNotification_unfold st win r tid reason obj hget (by simpa using hc),
        (checkForQueued_frame _).1]
      exact getElem?_set_other hne

theorem closeNotification_onCloseLog (st : SState) (win r : Nat)
    (tid : Option Nat) (reason : String) (obj : Notif)
    (hget : st.heap[r]? = some obj) (hc : obj.closed = false) :
    (closeNotification st win r tid reason).onCloseLog
      = if obj.hasOnClose then st.onCloseLog ++ [(r, reason)]
        else st.onCloseLog := by
  rw [closeNotification_unfold st win r tid reason obj hget hc,
    (checkForQueued_frame _).2.2.2.2.2.2.1]

theorem closeNotification_armedTimers (st : SState) (win r : Nat)
    (tid : Option Nat) (reason : String) (obj : Notif)
    (hget : st.heap[r]? = some obj) (hc : obj.closed = false) :
    (closeNotification st win r tid reason).armedTimers
      = match tid with
        | some t => st.armedTimers.erase t
        | none => st.armedTimers := by
  rw [closeNotification_unfold st win r tid reason obj hget hc,
    (checkForQueued_frame _).2.2.2.2.2.1]

theorem closeNotification_active_nil (st : SState) (win r : Nat)
    (tid : Option Nat) (reason : String) (hnil : st.activeNotifications = []) :
    (closeNotification st win r tid reason).activeNotifications = [] := by
  rcases hget : st.heap[r]? with _ | obj
  · rw [closeNotification_none_noop st win r tid reason hget]; exact hnil
  · by_cases hc : obj.closed
    · rw [closeNotification_closed_noop st win r tid reason obj hget hc]; exact hnil
    · rw [closeNotification_unfold st win r tid reason obj hget (by simpa using hc),
        (checkForQueued_frame _).2.2.1]
      simp [hnil, jsSpliceRemoveOne_nil]

/-! ### Step-level lemmas -/

theorem SStep_maxVisible (st : SState) (e : SEvent) :
    (SStep st e).maxVisible = st.maxVisible := by
  cases e with
  | notify o => simp [SStep, notifyValid]
  | notifyBad => rfl
  | runTask =>
    rcases hp : st.pending with _ | ⟨t, rest⟩
    · simp [SStep, hp]
    · rcases t with r | ⟨w, r, tid, reason⟩
      · simp only [SStep, hp, runNTask]
        rw [(showNotification_frame _ _).2.2.2.1]
      · simp only [SStep, hp, runNTask]
        rw [(closeNotification_frame _ _ _ _ _).2.1]
  | timerFire w r t =>
    by_cases h : t ∈ st.armedTimers <;> simp [SStep, h]
  | ipcClose w r => rfl
  | apiClose w r tid reason => rfl
  | closeAllCall => rfl

theorem SStep_latestID (st : SState) (e : SEvent) :
    (SStep st e).latestID = st.latestID + countNotifyCalls [e] := by
  cases e with
  | notify o => simp [SStep, notifyValid, countNotifyCalls]
  | notifyBad => simp [SStep, countNotifyCalls]
  | runTask =>
    simp only [countNotifyCalls, Nat.add_zero]
    rcases hp : st.pending with _ | ⟨t, rest⟩
    · simp [SStep, hp]
    · rcases t with r | ⟨w, r, tid, reason⟩
      · simp only [SStep, hp, runNTask]
        rw [(showNotification_frame _ _).2.1]
      · simp only [SStep, hp, runNTask]
        rw [(closeNotification_frame _ _ _ _ _).1]
  | timerFire w r t =>
    simp only [countNotifyCalls, Nat.add_zero]
    by_cases h : t ∈ st.armedTimers <;> simp [SStep, h]
  | ipcClose w r => simp [SStep, countNotifyCalls]
  | apiClose w r tid reason =>
    simp [SStep, closeNotificationSafely, countNotifyCalls]
  | closeAllCall => simp [SStep, closeAll, countNotifyCalls]

theorem SStep_capacity (st : SState) (e : SEvent)
    (h : (st.activeNotifications.length : Int) ≤ st.maxVisible) :
    ((SStep st e).activeNotifications.length : Int) ≤ (SStep st e).maxVisible := by
  rw [SStep_maxVisible]
  cases e with
  | notify o => simpa [SStep, notifyValid] using h
  | notifyBad => simpa using h
  | runTask =>
    rcases hp : st.pending with _ | ⟨t, rest⟩
    · simpa [SStep, hp] using h
    · rcases t with r | ⟨w, r, tid, reason⟩
      · simp only [SStep, hp, runNTask]
        exact showNotification_capacity _ _ (by simpa using h)
      · simp only [SStep, hp, runNTask]
        have hle := (closeNotification_frame { st with pending := rest }
          w r tid reason).2.2.2
        have hle2 : ((closeNotification { st with pending := rest }
            w r tid reason).activeNotifications.length : Int)
            ≤ (st.activeNotifications.length : Int) := by exact_mod_cast hle
        exact le_trans hle2 h
  | timerFire w r t =>
    by_cases hc : t ∈ st.armedTimers <;> simpa [SStep, hc] using h
  | ipcClose w r => simpa [SStep] using h
  | apiClose w r tid reason => simpa [SStep, closeNotificationSafely] using h
  | closeAllCall =>
    simp [SStep, closeAll]
    omega

theorem SStep_heap_cases (st : SState) (e : SEvent) (r : Nat) (o : Notif)
    (hget : st.heap[r]? = some o) :
    (SStep st e).heap[r]? = some o
    ∨ (SStep st e).heap[r]? = some { o with closed := true } := by
  cases e with
  | notify o2 =>
    left
    simp only [SStep, notifyValid]
    exact getElem?_append_left_of_some hget
  | notifyBad => exact Or.inl hget
  | runTask =>
    rcases hp : st.pending with _ | ⟨t, rest⟩
    · left; simpa [SStep, hp] using hget
    · rcases t with r2 | ⟨w, r2, tid, reason⟩
      · left
        simp only [SStep, hp, runNTask]
        rw [(showNotification_frame _ _).1]
        exact hget
      · simp only [SStep, hp, runNTask]
        by_cases hrr : r2 = r
        · subst hrr
          by_cases hcl : o.closed
          · left
            rw [closeNotification_closed_noop { st with pending := rest }
              w r2 tid reason o hget hcl]
            exact hget
          · right
            exact closeNotification_sets_closed { st with pending := rest }
              w r2 tid reason o hget (by simpa using hcl)
        · left
          rw [closeNotification_heap_other { st with pending := rest }
            w r2 r tid reason hrr]
          exact hget
  | timerFire w r2 t =>
    left
    by_cases hc : t ∈ st.armedTimers <;> simpa [SStep, hc] using hget
  | ipcClose w r2 => exact Or.inl hget
  | apiClose w r2 tid reason => exact Or.inl hget
  | closeAllCall => exact Or.inl hget

theorem SStep_closedAt_mono (st : SState) (e : SEvent) (r : Nat)
    (h : closedAt st r = true) : closedAt (SStep st e) r = true := by
  rcases hget : st.heap[r]? with _ | o
  · rw [closedAt, hget] at h; cases h
  · have hcl : o.closed = true := by rwa [closedAt, hget] at h
    rcases SStep_heap_cases st e r o hget with h2 | h2 <;>
      simp [closedAt, h2, hcl]

theorem SStep_countClose_frozen (st : SState) (e : SEvent) (r : Nat)
    (h : closedAt st r = true) :
    countCloseFor (SStep st e) r = countCloseFor st r := by
  cases e with
  | notify o => rfl
  | notifyBad => rfl
  | runTask =>
    rcases hp : st.pending with _ | ⟨t, rest⟩
    · simp [SStep, hp]
    · rcases t with r2 | ⟨w, r2, tid, reason⟩
      · simp only [SStep, hp, runNTask, countCloseFor]
        rw [(showNotification_frame _ _).2.2.2.2.1]
      · simp only [SStep, hp, runNTask]
        rcases hget : st.heap[r2]? with _ | obj
        · rw [closeNotification_none_noop { st with pending := rest }
            w r2 tid reason hget]
          rfl
        · by_cases hcl : obj.closed
          · rw [closeNotification_closed_noop { st with pending := rest }
              w r2 tid reason obj hget hcl]
            rfl
          · have hrr : r2 ≠ r := by
              intro hEq
              subst hEq
              rw [closedAt, hget] at h
              exact hcl h
            rw [countCloseFor, countCloseFor,
              closeNotification_onCloseLog { st with pending := rest }
                w r2 tid reason obj hget (by simpa using hcl)]
            by_cases hoc : obj.hasOnClose
            · rw [if_pos hoc]
              exact countCloseFor_append_other hrr
            · rw [if_neg hoc]
  | timerFire w r2 t =>
    by_cases hm : t ∈ st.armedTimers <;> simp [SStep, hm, countCloseFor]
  | ipcClose w r2 => rfl
  | apiClose w r2 tid reason => rfl
  | closeAllCall => rfl

theorem SStep_active_nil (st : SState) (e : SEvent) (hmax : st.maxVisible ≤ 0)
    (hnil : st.activeNotifications = []) :
    (SStep st e).activeNotifications = [] := by
  cases e with
  | notify o => simpa [SStep, notifyValid] using hnil
  | notifyBad => exact hnil
  | runTask =>
    rcases hp : st.pending with _ | ⟨t, rest⟩
    · simpa [SStep, hp] using hnil
    · rcases t with r | ⟨w, r, tid, reason⟩
      · simp only [SStep, hp, runNTask]
        rw [showNotification_of_ge { st with pending := rest } r
          (by simpa [hnil] using hmax)]
        exact hnil
      · simp only [SStep, hp, runNTask]
        exact closeNotification_active_nil _ _ _ _ _ hnil
  | timerFire w r t =>
    by_cases hm : t ∈ st.armedTimers <;> simpa [SStep, hm] using hnil
  | ipcClose w r => exact hnil
  | apiClose w r tid reason => exact hnil
  | closeAllCall => simp [SStep, closeAll]

/-! ### Fold lemmas over event sequences -/

theorem SRunFrom_cons (st : SState) (e : SEvent) (evs : List SEvent) :
    SRunFrom st (e :: evs) = SRunFrom (SStep st e) evs := by
  simp [SRunFrom]

theorem SRunFrom_maxVisible (evs : List SEvent) : ∀ st : SState,
    (SRunFrom st evs).maxVisible = st.maxVisible := by
  induction evs with
  | nil => intro st; rfl
  | cons e evs ih =>
    intro st
    rw [SRunFrom_cons, ih, SStep_maxVisible]

theorem SRunFrom_capacity (evs : List SEvent) : ∀ st : SState,
    (st.activeNotifications.length : Int) ≤ st.maxVisible →
    ((SRunFrom st evs).activeNotifications.length : Int)
      ≤ (SRunFrom st evs).maxVisible := by
  induction evs with
  | nil => intro st h; exact h
  | cons e evs ih =>
    intro st h
    rw [SRunFrom_cons]
    exact ih (SStep st e) (SStep_capacity st e h)

theorem SRunFrom_closed_frozen (evs : List SEvent) : ∀ (st : SState) (r : Nat),
    closedAt st r = true →
    closedAt (SRunFrom st evs) r = true
    ∧ countCloseFor (SRunFrom st evs) r = countCloseFor st r := by
  induction evs with
  | nil => intro st r h; exact ⟨h, rfl⟩
  | cons e evs ih =>
    intro st r h
    rw [SRunFrom_cons]
    rcases ih (SStep st e) r (SStep_closedAt_mono st e r h) with ⟨h1, h2⟩
    exact ⟨h1, by rw [h2, SStep_countClose_frozen st e r h]⟩

theorem SRunFrom_active_nil (evs : List SEvent) : ∀ st : SState,
    st.maxVisible ≤ 0 → st.activeNotifications = [] →
    (SRunFrom st evs).activeNotifications = [] := by
  induction evs with
  | nil => intro st _ hnil; exact hnil
  | cons e evs ih =>
    intro st hmax hnil
    rw [SRunFrom_cons]
    refine ih (SStep st e) ?_ (SStep_active_nil st e hmax hnil)
    rw [SStep_maxVisible]
    exact hmax

/-! ### The ids returned by notify -/

theorem range_map_succ_shift (k n : Nat) :
    (List.range (n+1)).map (k + ·) = k :: (List.range n).map ((k+1) + ·) := by
  rw [List.range_succ_eq_map, List.map_cons, List.map_map]
  have h2 : List.map ((fun x => k + x) ∘ Nat.succ) (List.range n)
      = List.map (fun x => k + 1 + x) (List.range n) :=
    List.map_congr_left fun i _ => by simp [Function.comp]; omega
  rw [h2]
  simp

theorem notifyIdsFrom_spec (evs : List SEvent) : ∀ st : SState,
    notifyIdsFrom st evs
      = (List.range (countNotifyCalls evs)).map (st.latestID + ·) := by
  induction evs with
  | nil => intro st; simp [notifyIdsFrom, countNotifyCalls]
  | cons e evs ih =>
    intro st
    cases e with
    | notify o =>
      simp only [notifyIdsFrom, countNotifyCalls]
      rw [range_map_succ_shift, ih]
      congr 1
    | notifyBad =>
      simp only [notifyIdsFrom, countNotifyCalls]
      rw [ih]
      have hl := SStep_latestID st SEvent.notifyBad
      simp only [countNotifyCalls, Nat.add_zero] at hl
      rw [hl]
    | runTask =>
      simp only [notifyIdsFrom, countNotifyCalls]
      rw [ih]
      have hl := SStep_latestID st SEvent.runTask
      simp only [countNotifyCalls, Nat.add_zero] at hl
      rw [hl]
    | timerFire w r t =>
      simp only [notifyIdsFrom, countNotifyCalls]
      rw [ih]
      have hl := SStep_latestID st (SEvent.timerFire w r t)
      simp only [countNotifyCalls, Nat.add_zero] at hl
      rw [hl]
    | ipcClose w r =>
      simp only [notifyIdsFrom, countNotifyCalls]
      rw [ih]
      have hl := SStep_latestID st (SEvent.ipcClose w r)
      simp only [countNotifyCalls, Nat.add_zero] at hl
      rw [hl]
    | apiClose w r tid reason =>
      simp only [notifyIdsFrom, countNotifyCalls]
      rw [ih]
      have hl := SStep_latestID st (SEvent.apiClose w r tid reason)
      simp only [countNotifyCalls, Nat.add_zero] at hl
      rw [hl]
    | closeAllCall =>
      simp only [notifyIdsFrom, countNotifyCalls]
      rw [ih]
      have hl := SStep_latestID st SEvent.closeAllCall
      simp only [countNotifyCalls, Nat.add_zero] at hl
      rw [hl]

/-! ### Close-call sequences -/

theorem closeCalls_noop (calls : List (Nat × Option Nat × String)) :
    ∀ (st : SState) (r : Nat), closedAt st r = true →
    closeCalls st r calls = st := by
  induction calls with
  | nil => intro st r _; rfl
  | cons c cs ih =>
    intro st r h
    rcases hget : st.heap[r]? with _ | obj
    · simp only [closeCalls]
      rw [closeNotification_none_noop st c.1 r c.2.1 c.2.2 hget]
      exact ih st r h
    · have hcl : obj.closed = true := by rwa [closedAt, hget] at h
      simp only [closeCalls]
      rw [closeNotification_closed_noop st c.1 r c.2.1 c.2.2 obj hget hcl]
      exact ih st r h

theorem closeCalls_once (st : SState) (r : Nat) (obj : Notif)
    (c : Nat × Option Nat × String) (cs : List (Nat × Option Nat × String))
    (hget : st.heap[r]? = some obj) (hc : obj.closed = false)
    (hoc : obj.hasOnClose = true) :
    countCloseFor (closeCalls st r (c :: cs)) r = countCloseFor st r + 1 := by
  simp only [closeCalls]
  have hclosed1 : closedAt (closeNotification st c.1 r c.2.1 c.2.2) r = true := by
    rw [closedAt, closeNotification_sets_closed st c.1 r c.2.1 c.2.2 obj hget hc]
  rw [closeCalls_noop cs _ r hclosed1]
  rw [countCloseFor, countCloseFor,
    closeNotification_onCloseLog st c.1 r c.2.1 c.2.2 obj hget hc, if_pos hoc,
    List.filter_append]
  simp

/-! ### Claim theorems for the scheduler -/

/-- **C3.**  Over any event sequence from the initial state, the ids
returned by the valid `notify` calls are exactly `0, 1, 2, ...` in call
order — integers, strictly increasing, starting at 0, never reused — and
`notify` determines the id and returns it at once: the call only bumps
`latestID` and enqueues the show task, leaving the shown log and the
active set untouched, so the id is valid before the notification is
displayed. -/
theorem notify_ids_strictly_increasing :
    (∀ (m : Int) (evs : List SEvent),
        notifyIdsFrom (SState.init m) evs = List.range (countNotifyCalls evs))
    ∧ (∀ (st : SState) (o : Notif),
        (notifyValid st o).1 = st.latestID
        ∧ (notifyValid st o).2.latestID = st.latestID + 1
        ∧ (notifyValid st o).2.shownLog = st.shownLog
        ∧ (notifyValid st o).2.activeNotifications = st.activeNotifications
        ∧ (notifyValid st o).2.pending
            = st.pending ++ [NTask.show st.heap.length]) := by
  constructor
  · intro m evs
    rw [notifyIdsFrom_spec]
    simp [SState.init]
  · intro st o
    exact ⟨rfl, rfl, rfl, rfl, rfl⟩

/-- **C4.**  A malformed `notify` call (wrong arity, or a single argument
whose typeof is not "object") is logged, returns `undefined`, and mutates
no state — but the further claim that no input ever throws past the public
API is wrong: `typeof null` is "object" in JavaScript, so `notify(null)`
passes the guard and the next line `notification.id = latestID` throws a
TypeError that escapes to the caller. -/
theorem notify_malformed (st : SState) :
    notify st [JSVal.null]
      = JSOutcome.threw "TypeError: cannot set properties of null"
    ∧ (∀ v : JSVal, jsTypeof v ≠ "object" →
        notify st [v] = JSOutcome.ret none st)
    ∧ (∀ args : List JSVal, args.length ≠ 1 →
        notify st args = JSOutcome.ret none st) := by
  refine ⟨rfl, ?_, ?_⟩
  · intro v hv
    cases v with
    | null => exact absurd rfl hv
    | obj o => exact absurd rfl hv
    | undefined => simp only [notify]; rw [if_neg (fun hcon => hv hcon.2)]
    | num n => simp only [notify]; rw [if_neg (fun hcon => hv hcon.2)]
    | str s => simp only [notify]; rw [if_neg (fun hcon => hv hcon.2)]
    | bool b => simp only [notify]; rw [if_neg (fun hcon => hv hcon.2)]
    | jsfun => simp only [notify]; rw [if_neg (fun hcon => hv hcon.2)]
  · intro args h
    simp only [notify]
    rw [if_neg (fun hcon => h hcon.1)]

/-- Witness for C4 at concrete inputs: a number argument and an empty
argument list are rejected without effect, and `notify(null)` throws. -/
theorem notify_malformed_witness :
    notify (SState.init 3) [JSVal.num 42] = JSOutcome.ret none (SState.init 3)
    ∧ notify (SState.init 3) [] = JSOutcome.ret none (SState.init 3)
    ∧ notify (SState.init 3) [JSVal.null]
        = JSOutcome.threw "TypeError: cannot set properties of null" :=
  ⟨(notify_malformed (SState.init 3)).2.1 (JSVal.num 42) (by decide),
   (notify_malformed (SState.init 3)).2.2 [] (by decide),
   (notify_malformed (SState.init 3)).1⟩

/-- **C5.**  Capacity invariant: from the initial state with a nonnegative
slot bound `m`, after any sequence of events the active set never holds
more than `m` windows; and a `showNotification` task that finds the active
set full only appends the request to the overflow queue — no window is
acquired, created or bound. -/
theorem activeSet_capacity (m : Int) (hm : 0 ≤ m) (evs : List SEvent) :
    ((SRun m evs).activeNotifications.length : Int) ≤ m
    ∧ (∀ (st : SState) (r : Nat),
        st.maxVisible ≤ (st.activeNotifications.length : Int) →
        showNotification st r
          = { st with notificationQueue := st.notificationQueue ++ [r] }) := by
  constructor
  · have h := SRunFrom_capacity evs (SState.init m)
      (by simpa [SState.init] using hm)
    rw [SRunFrom_maxVisible] at h
    exact h
  · intro st r h
    exact showNotification_of_ge st r h

/-- Witness for C5: with one slot, two notifications shown in sequence
leave at most one active window; with zero slots a show task only queues. -/
theorem activeSet_capacity_witness :
    ((SRun 1 [SEvent.notify { hasOnClose := true }, SEvent.runTask,
        SEvent.notify { hasOnClose := true },
        SEvent.runTask]).activeNotifications.length : Int) ≤ 1
    ∧ showNotification (SState.init 0) 5
        = { SState.init 0 with notificationQueue := [5] } :=
  ⟨(activeSet_capacity 1 (by decide) _).1,
   (activeSet_capacity 0 (by decide) []).2 (SState.init 0) 5 (by decide)⟩

/-- **C6.**  Close is idempotent per request: a close invocation on an
already-closed object returns the state completely unchanged; the `closed`
flag never reverts under any event; and for an unclosed request with an
`onCloseFunc`, any nonempty sequence of close invocations — through any
mix of windows, captured timeout accessors and reasons — fires
`onCloseFunc` exactly once. -/
theorem close_idempotent :
    (∀ (st : SState) (win r : Nat) (tid : Option Nat) (reason : String)
        (obj : Notif), st.heap[r]? = some obj → obj.closed = true →
        closeNotification st win r tid reason = st)
    ∧ (∀ (st : SState) (e : SEvent) (r : Nat),
        closedAt st r = true → closedAt (SStep st e) r = true)
    ∧ (∀ (st : SState) (r : Nat) (obj : Notif)
        (c : Nat × Option Nat × String) (cs : List (Nat × Option Nat × String)),
        st.heap[r]? = some obj → obj.closed = false → obj.hasOnClose = true →
        countCloseFor (closeCalls st r (c :: cs)) r = countCloseFor st r + 1) :=
  ⟨fun st win r tid reason obj hget hc =>
      closeNotification_closed_noop st win r tid reason obj hget hc,
   fun st e r h => SStep_closedAt_mono st e r h,
   fun st r obj c cs hget hc hoc => closeCalls_once st r obj c cs hget hc hoc⟩

/-- Witness for C6: closing an already-closed concrete request is a no-op,
and two concrete closes through different paths fire `onCloseFunc` once. -/
theorem close_idempotent_witness :
    closeNotification
        (SRun 1 [SEvent.notify { hasOnClose := true }, SEvent.runTask,
          SEvent.ipcClose 0 0, SEvent.runTask]) 3 0 none "close"
      = SRun 1 [SEvent.notify { hasOnClose := true }, SEvent.runTask,
          SEvent.ipcClose 0 0, SEvent.runTask]
    ∧ countCloseFor
        (closeCalls (SRun 1 [SEvent.notify { hasOnClose := true },
          SEvent.runTask]) 0 [(0, some 0, "closedByAPI"), (0, none, "close")]) 0
      = countCloseFor
          (SRun 1 [SEvent.notify { hasOnClose := true }, SEvent.runTask]) 0 + 1 := by
  constructor
  · exact close_idempotent.1 _ 3 0 none "close"
      { id := some 0, hasOnClose := true, closed := true } (by decide) (by decide)
  · exact close_idempotent.2.2 _ 0
      { id := some 0, hasOnClose := true }
      (0, some 0, "closedByAPI") [(0, none, "close")]
      (by decide) (by decide) (by decide)

/-- **C7 counterexample.**  A notification is shown (arming timeout timer
0) and then closed through the close signal from the surface; afterwards
the request is closed and its window recycled into the pool, yet timer 0
is still armed — the surface close path does not cancel the timeout,
refuting the claim that whichever close path fires first cancels the
pending timer. -/
theorem close_timer_counterexample :
    (SRun 1 [SEvent.notify { hasOnClose := true }, SEvent.runTask,
        SEvent.ipcClose 0 0, SEvent.runTask]).armedTimers = [0]
    ∧ closedAt (SRun 1 [SEvent.notify { hasOnClose := true }, SEvent.runTask,
        SEvent.ipcClose 0 0, SEvent.runTask]) 0 = true
    ∧ (SRun 1 [SEvent.notify { hasOnClose := true }, SEvent.runTask,
        SEvent.ipcClose 0 0, SEvent.runTask]).inactiveWindows = [0] :=
  ⟨by decide, by decide, by decide⟩

/-- **C7 (amended).**  The timeout and API close paths — the close
closures that captured `getTimeoutId` — cancel the pending timeout timer,
and a fired or cancelled timer never fires again; a close initiated from
the surface (ipc close/click: the closure is built without `getTimeoutId`)
leaves the timer armed, but the stray timer still cannot make a second
close take effect: a close attempt on an already-closed request returns
the state unchanged. -/
theorem close_timer_amended :
    (∀ (st : SState) (win r t : Nat) (reason : String) (obj : Notif),
        st.heap[r]? = some obj → obj.closed = false →
        (closeNotification st win r (some t) reason).armedTimers
          = st.armedTimers.erase t)
    ∧ (∀ (st : SState) (win r : Nat) (reason : String) (obj : Notif),
        st.heap[r]? = some obj → obj.closed = false →
        (closeNotification st win r none reason).armedTimers = st.armedTimers)
    ∧ (∀ (st : SState) (win r t : Nat), t ∉ st.armedTimers →
        SStep st (SEvent.timerFire win r t) = st)
    ∧ (∀ (st : SState) (win r : Nat) (tid : Option Nat) (reason : String)
        (obj : Notif), st.heap[r]? = some obj → obj.closed = true →
        closeNotification st win r tid reason = st) := by
  refine ⟨?_, ?_, ?_, ?_⟩
  · intro st win r t reason obj hget hc
    rw [closeNotification_armedTimers st win r (some t) reason obj hget hc]
  · intro st win r reason obj hget hc
    rw [closeNotification_armedTimers st win r none reason obj hget hc]
  · intro st win r t hnot
    simp [SStep, hnot]
  · intro st win r tid reason obj hget hc
    exact closeNotification_closed_noop st win r tid reason obj hget hc

/-- Witness for the amended C7 on concrete states: the timeout-path close
clears the armed timer, a non-armed timer firing is a no-op, and a close
on an already-closed request is a no-op. -/
theorem close_timer_amended_witness :
    (closeNotification (SRun 1 [SEvent.notify { hasOnClose := true },
        SEvent.runTask]) 0 0 (some 0) "timeout").armedTimers
      = (SRun 1 [SEvent.notify { hasOnClose := true },
          SEvent.runTask]).armedTimers.erase 0
    ∧ SStep (SRun 1 [SEvent.notify { hasOnClose := true }, SEvent.runTask])
        (SEvent.timerFire 0 0 5)
      = SRun 1 [SEvent.notify { hasOnClose := true }, SEvent.runTask]
    ∧ closeNotification
        (SRun 1 [SEvent.notify { hasOnClose := true }, SEvent.runTask,
          SEvent.ipcClose 0 0, SEvent.runTask]) 0 0 (some 0) "timeout"
      = SRun 1 [SEvent.notify { hasOnClose := true }, SEvent.runTask,
          SEvent.ipcClose 0 0, SEvent.runTask] := by
  refine ⟨?_, ?_, ?_⟩
  · exact close_timer_amended.1 _ 0 0 0 "timeout"
      { id := some 0, hasOnClose := true } (by decide) (by decide)
  · exact close_timer_amended.2.2.1 _ 0 0 5 (by decide)
  · exact close_timer_amended.2.2.2 _ 0 0 (some 0) "timeout"
      { id := some 0, hasOnClose := true, closed := true } (by decide) (by decide)

/-- **C8 counterexample.**  With zero visible slots a notification is
parked in the overflow queue; `closeAll()` then empties the animation
queue, the active set and the pool, but the overflow queue still holds the
request — refuting the claim that after `closeAll()` the OverflowQueue is
empty and waiting requests are discarded. -/
theorem closeAll_counterexample :
    (SRun 0 [SEvent.notify { payload := 1 }, SEvent.runTask,
        SEvent.closeAllCall]).notificationQueue = [0]
    ∧ (SRun 0 [SEvent.notify { payload := 1 }, SEvent.runTask,
        SEvent.closeAllCall]).pending = []
    ∧ (SRun 0 [SEvent.notify { payload := 1 }, SEvent.runTask,
        SEvent.closeAllCall]).activeNotifications = []
    ∧ (SRun 0 [SEvent.notify { payload := 1 }, SEvent.runTask,
        SEvent.closeAllCall]).inactiveWindows = [] :=
  ⟨by decide, by decide, by decide, by decide⟩

/-- **C8 (amended).**  After `closeAll()` the animation queue has no
pending tasks, every window of the active set and of the pool has been
destroyed, and both are reset to empty — but the overflow queue is left
untouched (its requests are not discarded), and the heap of notification
objects is unchanged. -/
theorem closeAll_resets (st : SState) :
    (closeAll st).pending = []
    ∧ (closeAll st).activeNotifications = []
    ∧ (closeAll st).inactiveWindows = []
    ∧ (∀ w, w ∈ st.activeNotifications → w ∈ (closeAll st).destroyedWins)
    ∧ (∀ w, w ∈ st.inactiveWindows → w ∈ (closeAll st).destroyedWins)
    ∧ (closeAll st).notificationQueue = st.notificationQueue
    ∧ (closeAll st).heap = st.heap := by
  refine ⟨rfl, rfl, rfl, ?_, ?_, rfl, rfl⟩
  · intro w hw
    simp only [closeAll, List.mem_append]
    tauto
  · intro w hw
    simp only [closeAll, List.mem_append]
    tauto

/-- Witness for the amended C8 on a concrete state with one shown
notification: its window is destroyed and all queues but the overflow
queue are reset. -/
theorem closeAll_resets_witness :
    (closeAll (SRun 1 [SEvent.notify { payload := 1 },
        SEvent.runTask])).pending = []
    ∧ 0 ∈ (closeAll (SRun 1 [SEvent.notify { payload := 1 },
        SEvent.runTask])).destroyedWins :=
  ⟨(closeAll_resets _).1, (closeAll_resets _).2.2.2.1 0 (by decide)⟩

/-- **C9.**  `maxVisibleNotifications` is the floor of
`workAreaHeight / totalHeight` capped above at 7; when that quotient is
zero or negative the effective number of visible slots is zero: from such
a configuration the active set stays empty under every event sequence, and
the (total, hence crash-free) show path routes every notification to the
overflow queue. -/
theorem maxVisible_capped_and_degenerate (h th : Int) :
    maxVisibleNotifications h th = min (Int.fdiv h th) 7
    ∧ (Int.fdiv h th ≤ 0 → ∀ evs : List SEvent,
        (SRun (maxVisibleNotifications h th) evs).activeNotifications = [])
    ∧ (∀ (st : SState) (r : Nat), st.maxVisible ≤ 0 →
        st.activeNotifications = [] →
        showNotification st r
          = { st with notificationQueue := st.notificationQueue ++ [r] }) := by
  refine ⟨?_, ?_, ?_⟩
  · simp only [maxVisibleNotifications]
    rcases le_or_lt (Int.fdiv h th) 7 with hle | hlt
    · rw [if_neg (not_lt.mpr hle), min_eq_left hle]
    · rw [if_pos hlt, min_eq_right hlt.le]
  · intro hq evs
    refine SRunFrom_active_nil evs _ ?_ rfl
    show maxVisibleNotifications h th ≤ 0
    simp only [maxVisibleNotifications]
    split
    · omega
    · exact hq
  · intro st r hmax hnil
    exact showNotification_of_ge st r (by simpa [hnil] using hmax)

/-- Witness for C9 at a degenerate geometry (workAreaHeight -100,
totalHeight 75, so the floored quotient is -2): the cap formula holds and
a notify/run sequence leaves the active set empty. -/
theorem maxVisible_capped_and_degenerate_witness :
    maxVisibleNotifications (-100) 75 = min (Int.fdiv (-100) 75) 7
    ∧ (SRun (maxVisibleNotifications (-100) 75)
        [SEvent.notify { payload := 1 }, SEvent.runTask]).activeNotifications = []
    ∧ showNotification (SState.init 0) 9
        = { SState.init 0 with notificationQueue := [9] } :=
  ⟨(maxVisible_capped_and_degenerate (-100) 75).1,
   (maxVisible_capped_and_degenerate (-100) 75).2.1 (by decide) _,
   (maxVisible_capped_and_degenerate (-100) 75).2.2 (SState.init 0) 9
     (by decide) (by decide)⟩

/-- **C10.**  `notify` writes the id into the caller-supplied object in
place: the heap cell created is the record given by the caller with only
`id` changed, and the enqueued show task holds exactly that reference.
Under every scheduler event an existing object keeps every field except
possibly `closed` (payload, callbacks, displayTime and id are never
modified by the core).  A request passed in with `closed` already true is
silently never closable: no `onCloseFunc` invocation is ever recorded for
its reference, whatever events follow. -/
theorem notify_in_place_mutation :
    (∀ (st : SState) (o : Notif),
        (notifyValid st o).2.heap
            = st.heap ++ [{ o with id := some st.latestID }]
        ∧ (notifyValid st o).2.pending
            = st.pending ++ [NTask.show st.heap.length])
    ∧ (∀ (st : SState) (e : SEvent) (r : Nat) (o : Notif),
        st.heap[r]? = some o →
        ∃ b, (SStep st e).heap[r]? = some { o with closed := b })
    ∧ (∀ (st : SState) (o : Notif), o.closed = true → ∀ evs : List SEvent,
        countCloseFor (SRunFrom (SStep st (SEvent.notify o)) evs) st.heap.length
          = countCloseFor st st.heap.length) := by
  refine ⟨fun st o => ⟨rfl, rfl⟩, ?_, ?_⟩
  · intro st e r o hget
    rcases SStep_heap_cases st e r o hget with h2 | h2
    · exact ⟨o.closed, h2⟩
    · exact ⟨true, h2⟩
  · intro st o hc evs
    have hclosed : closedAt (SStep st (SEvent.notify o)) st.heap.length = true := by
      have hcell : (SStep st (SEvent.notify o)).heap[st.heap.length]?
          = some { o with id := some st.latestID } := by
        simp only [SStep, notifyValid]
        exact List.getElem?_concat_length _ _
      rw [closedAt, hcell]
      exact hc
    have hlog : countCloseFor (SStep st (SEvent.notify o)) st.heap.length
        = countCloseFor st st.heap.length := rfl
    rw [(SRunFrom_closed_frozen evs _ _ hclosed).2, hlog]

/-- Witness for C10 on concrete data: the stored object is the caller
record with only `id` written, the heap cell survives a step with at most
`closed` changed, and a pre-closed request accrues no `onCloseFunc` call
across show/close events. -/
theorem notify_in_place_mutation_witness :
    (notifyValid (SState.init 3) { payload := 7 }).2.heap
        = (SState.init 3).heap
          ++ [{ ({ payload := 7 } : Notif) with
                id := some (SState.init 3).latestID }]
    ∧ (∃ b, (SStep (SRun 3 [SEvent.notify { payload := 7 }])
          SEvent.runTask).heap[0]?
        = some { ({ id := some 0, payload := 7 } : Notif) with closed := b })
    ∧ countCloseFor
        (SRunFrom (SStep (SState.init 3)
            (SEvent.notify { closed := true, hasOnClose := true }))
          [SEvent.runTask, SEvent.ipcClose 0 0, SEvent.runTask]) 0
      = countCloseFor (SState.init 3) 0 := by
  refine ⟨(notify_in_place_mutation.1 (SState.init 3) { payload := 7 }).1, ?_, ?_⟩
  · exact notify_in_place_mutation.2.1 _ SEvent.runTask 0
      { id := some 0, payload := 7 } (by decide)
  · exact notify_in_place_mutation.2.2 (SState.init 3)
      { closed := true, hasOnClose := true } (by decide) _
